import Mathlib

/-!
# LAN Sharing Service — verification of the peer-presence / resource-coordination core

Shallow embedding of the Python sources of the LAN-Sharing-Service repository:

* `src/lanshare/core/udp_discovery.py` — `UDPPeerDiscovery` (peer table, broadcast
  discovery, disconnection handling, conversation ids, lazy liveness sweep);
* `src/lanshare/core/registry.py` — `RegistryClient` (registry attestations,
  disappeared-peer handling, unregister cleanup);
* `src/lanshare/core/file_share.py` — `FileShareManager` / `SharedResource`
  (owned/received catalogs, ACL updates, share idempotence, persistence);
* `src/registry.py` — the rendezvous server's `/peers` endpoint.

Wall-clock instants are embedded as rationals (seconds); machine floats in the
source only ever enter comparisons and subtractions here, which are exact.
Network and filesystem I/O performed by the source is reflected as explicit
outputs (packet lists) or oracle parameters (`fsExists`, `abspath`, `mtime`);
the embedded state transformers carry everything the in-memory state holds.
-/

namespace LanShare

/-- A peer-table row, mirroring `lanshare/core/types.py` `Peer` as used by
`udp_discovery.py` and `registry.py`: address/port of last contact, wall-clock
first/last-seen instants, and the two discovery-axis flags. -/
structure Peer where
  username : String
  address : String
  port : Nat
  first_seen : ℚ
  last_seen : ℚ
  broadcast_peer : Bool
  registry_peer : Bool
  deriving Repr, DecidableEq

/-- The in-memory peer dictionary `UDPPeerDiscovery.peers`, embedded as a map
from username to the stored row (`none` = absent). -/
def PeerTable : Type := String → Option Peer

/-- `UDPPeerDiscovery._handle_announcement` (udp_discovery.py lines 173-211),
restricted to its effect on the peer dictionary.  A self-announcement is
ignored; an unknown username is inserted with `broadcast_peer = true`,
`registry_peer = false` and the *configured* port; an existing row has its
`last_seen`, `address` and `port` overwritten (the port unconditionally with
the configured port) and `broadcast_peer` set, the registry flag untouched. -/
def handleAnnouncement (selfU : String) (cfgPort : Nat) (pu : String)
    (ip : String) (now : ℚ) (t : PeerTable) : PeerTable :=
  if pu = selfU then t
  else fun v =>
    if v = pu then
      match t pu with
      | none =>
        some { username := pu, address := ip, port := cfgPort,
               first_seen := now, last_seen := now,
               broadcast_peer := true, registry_peer := false }
      | some p =>
        some { p with last_seen := now, address := ip, port := cfgPort,
                      broadcast_peer := true }
    else t v

/-- Per-row body of the lazy liveness sweep in `UDPPeerDiscovery.list_peers`
(udp_discovery.py lines 417-458): a broadcast-attested row whose beacon is
older than `peer_timeout` loses its broadcast flag and survives only when
registry-attested; a row attested by neither axis is deleted. -/
def sweepPeer (timeout now : ℚ) (p : Peer) : Option Peer :=
  if p.broadcast_peer then
    if now - p.last_seen ≤ timeout then some p
    else if p.registry_peer then some { p with broadcast_peer := false }
    else none
  else if p.registry_peer then some p
  else none

/-- `UDPPeerDiscovery.list_peers`' effect on the peer dictionary: the lazy
sweep applied to every row (each row is treated independently by the loop). -/
def listPeersSweep (timeout now : ℚ) (t : PeerTable) : PeerTable :=
  fun v => (t v).bind (sweepPeer timeout now)

/-- `UDPPeerDiscovery._handle_disconnection` (udp_discovery.py lines 263-288),
effect on the peer dictionary only: for a non-empty, non-self, known username,
a registry-attested row merely loses its broadcast flag, a broadcast-only row
is deleted.  (The resource purge performed on the deletion branch is embedded
separately in `discSys`.) -/
def handleDisconnection (selfU pu : String) (t : PeerTable) : PeerTable :=
  if pu = "" ∨ pu = selfU then t
  else match t pu with
    | none => t
    | some p =>
      if p.registry_peer then
        fun v => if v = pu then some { p with broadcast_peer := false } else t v
      else
        fun v => if v = pu then none else t v

/-- `RegistryClient._process_registry_peer` (registry.py lines 282-320), effect
on the peer dictionary: an unknown username is inserted with
`registry_peer = true`, `broadcast_peer = false` and the registry-advertised
port; an existing row has `last_seen`, `address`, `port` overwritten with the
registry data and `registry_peer` set, the broadcast flag untouched. -/
def processRegistryPeer (pu addr : String) (port : Nat) (now : ℚ)
    (t : PeerTable) : PeerTable :=
  fun v =>
    if v = pu then
      match t pu with
      | none =>
        some { username := pu, address := addr, port := port,
               first_seen := now, last_seen := now,
               broadcast_peer := false, registry_peer := true }
      | some p =>
        some { p with last_seen := now, address := addr, port := port,
                      registry_peer := true }
    else t v

/-- Body of the loop in `RegistryClient._check_disappeared_peers`
(registry.py lines 322-345) for one disappeared username, effect on the peer
dictionary: a broadcast-attested row loses its registry flag, a registry-only
row is deleted, an unknown username leaves the table unchanged. -/
def checkDisappearedPeer (pu : String) (t : PeerTable) : PeerTable :=
  match t pu with
  | none => t
  | some p =>
    if p.broadcast_peer then
      fun v => if v = pu then some { p with registry_peer := false } else t v
    else
      fun v => if v = pu then none else t v

/-- `RegistryClient._cleanup_registry_peers` (registry.py lines 158-178), run
on unregister: every registry-attested row either drops to broadcast-only (if
also broadcast-attested) or is deleted; each row is treated independently. -/
def cleanupRegistryPeers (t : PeerTable) : PeerTable :=
  fun v =>
    match t v with
    | none => none
    | some p =>
      if p.registry_peer then
        if p.broadcast_peer then some { p with registry_peer := false }
        else none
      else some p

/-- The empty peer table (state at `UDPPeerDiscovery.__init__`). -/
def emptyTable : PeerTable := fun _ => none

/-- Reachable peer-table states: the empty initial table closed under every
operation of the source that writes `UDPPeerDiscovery.peers`
(`FileShareManager` only ever reads the dictionary). -/
inductive ReachableTable : PeerTable → Prop where
  | init : ReachableTable emptyTable
  | ann (selfU : String) (cfgPort : Nat) (pu ip : String) (now : ℚ) {t : PeerTable} :
      ReachableTable t → ReachableTable (handleAnnouncement selfU cfgPort pu ip now t)
  | sweep (timeout now : ℚ) {t : PeerTable} :
      ReachableTable t → ReachableTable (listPeersSweep timeout now t)
  | disc (selfU pu : String) {t : PeerTable} :
      ReachableTable t → ReachableTable (handleDisconnection selfU pu t)
  | reg (pu addr : String) (port : Nat) (now : ℚ) {t : PeerTable} :
      ReachableTable t → ReachableTable (processRegistryPeer pu addr port now t)
  | gone (pu : String) {t : PeerTable} :
      ReachableTable t → ReachableTable (checkDisappearedPeer pu t)
  | unreg {t : PeerTable} :
      ReachableTable t → ReachableTable (cleanupRegistryPeers t)

/-- The table invariant of spec §3 / §8.1: every stored row is attested by at
least one discovery axis. -/
def TableInv (t : PeerTable) : Prop :=
  ∀ u p, t u = some p → p.broadcast_peer = true ∨ p.registry_peer = true

theorem tableInv_handleAnnouncement (selfU : String) (cfgPort : Nat)
    (pu ip : String) (now : ℚ) {t : PeerTable} (h : TableInv t) :
    TableInv (handleAnnouncement selfU cfgPort pu ip now t) := by
  intro u p hp
  unfold handleAnnouncement at hp
  by_cases hself : pu = selfU
  · simp [hself] at hp; exact h u p hp
  · simp only [if_neg hself] at hp
    by_cases hu : u = pu
    · subst hu
      simp only [if_pos rfl] at hp
      cases ht : t u with
      | none => rw [ht] at hp; cases hp; left; rfl
      | some q => rw [ht] at hp; cases hp; left; rfl
    · simp only [if_neg hu] at hp; exact h u p hp

theorem tableInv_sweep (timeout now : ℚ) {t : PeerTable} (h : TableInv t) :
    TableInv (listPeersSweep timeout now t) := by
  intro u p hp
  unfold listPeersSweep at hp
  cases ht : t u with
  | none => rw [ht] at hp; cases hp
  | some q =>
    rw [ht] at hp
    replace hp : sweepPeer timeout now q = some p := hp
    unfold sweepPeer at hp
    by_cases hb : q.broadcast_peer
    · rw [if_pos hb] at hp
      by_cases htime : now - q.last_seen ≤ timeout
      · rw [if_pos htime, Option.some_inj] at hp; subst hp; left; exact hb
      · rw [if_neg htime] at hp
        by_cases hr : q.registry_peer
        · rw [if_pos hr, Option.some_inj] at hp; subst hp; right; exact hr
        · rw [if_neg hr] at hp; cases hp
    · rw [if_neg hb] at hp
      by_cases hr : q.registry_peer
      · rw [if_pos hr, Option.some_inj] at hp; subst hp; right; exact hr
      · rw [if_neg hr] at hp; cases hp

theorem tableInv_disc (selfU pu : String) {t : PeerTable} (h : TableInv t) :
    TableInv (handleDisconnection selfU pu t) := by
  intro u p hp
  unfold handleDisconnection at hp
  by_cases hguard : pu = "" ∨ pu = selfU
  · rw [if_pos hguard] at hp; exact h u p hp
  · rw [if_neg hguard] at hp
    cases ht : t pu with
    | none => rw [ht] at hp; exact h u p hp
    | some q =>
      simp only [ht] at hp
      by_cases hr : q.registry_peer
      · rw [if_pos hr] at hp
        by_cases hu : u = pu
        · rw [if_pos hu, Option.some_inj] at hp; subst hp; right; exact hr
        · rw [if_neg hu] at hp; exact h u p hp
      · rw [if_neg hr] at hp
        by_cases hu : u = pu
        · rw [if_pos hu] at hp; cases hp
        · rw [if_neg hu] at hp; exact h u p hp

theorem tableInv_reg (pu addr : String) (port : Nat) (now : ℚ)
    {t : PeerTable} (h : TableInv t) :
    TableInv (processRegistryPeer pu addr port now t) := by
  intro u p hp
  unfold processRegistryPeer at hp
  by_cases hu : u = pu
  · subst hu
    simp only [if_pos rfl] at hp
    cases ht : t u with
    | none => rw [ht] at hp; cases hp; right; rfl
    | some q => rw [ht] at hp; cases hp; right; rfl
  · simp only [if_neg hu] at hp; exact h u p hp

theorem tableInv_gone (pu : String) {t : PeerTable} (h : TableInv t) :
    TableInv (checkDisappearedPeer pu t) := by
  intro u p hp
  unfold checkDisappearedPeer at hp
  cases ht : t pu with
  | none => rw [ht] at hp; exact h u p hp
  | some q =>
    simp only [ht] at hp
    by_cases hb : q.broadcast_peer
    · rw [if_pos hb] at hp
      by_cases hu : u = pu
      · rw [if_pos hu, Option.some_inj] at hp; subst hp; left; exact hb
      · rw [if_neg hu] at hp; exact h u p hp
    · rw [if_neg hb] at hp
      by_cases hu : u = pu
      · rw [if_pos hu] at hp; cases hp
      · rw [if_neg hu] at hp; exact h u p hp

theorem tableInv_unreg {t : PeerTable} (h : TableInv t) :
    TableInv (cleanupRegistryPeers t) := by
  intro u p hp
  unfold cleanupRegistryPeers at hp
  cases ht : t u with
  | none => rw [ht] at hp; cases hp
  | some q =>
    simp only [ht] at hp
    by_cases hr : q.registry_peer
    · rw [if_pos hr] at hp
      by_cases hb : q.broadcast_peer
      · rw [if_pos hb, Option.some_inj] at hp; subst hp; left; exact hb
      · rw [if_neg hb] at hp; cases hp
    · rw [if_neg hr, Option.some_inj] at hp; subst hp; exact h u _ ht

/-- C3. In every reachable state of the peer table every stored `Peer` row has
`broadcast_peer = true` or `registry_peer = true`; equivalently, every
operation of the source that makes both flags false for a row (the lazy
broadcast-timeout sweep of `list_peers`, `_handle_disconnection`,
`_check_disappeared_peers`, and the unregister-time `_cleanup_registry_peers`)
deletes that row in the same step, so a flagless row is never stored. -/
theorem peer_table_axis_invariant {t : PeerTable} (h : ReachableTable t) :
    ∀ u p, t u = some p → p.broadcast_peer = true ∨ p.registry_peer = true := by
  induction h with
  | init => intro u p hp; cases hp
  | ann selfU cfgPort pu ip now _ ih => exact tableInv_handleAnnouncement selfU cfgPort pu ip now ih
  | sweep timeout now _ ih => exact tableInv_sweep timeout now ih
  | disc selfU pu _ ih => exact tableInv_disc selfU pu ih
  | reg pu addr port now _ ih => exact tableInv_reg pu addr port now ih
  | gone pu _ ih => exact tableInv_gone pu ih
  | unreg _ ih => exact tableInv_unreg ih

/-- Witness for C3: the table obtained from the empty table by one broadcast
announcement from user `b` is reachable, and the theorem yields the invariant
for its single row. -/
theorem peer_table_axis_invariant_witness :
    (handleAnnouncement "a" 12345 "b" "10.0.0.2" 0 emptyTable) "b" =
      some { username := "b", address := "10.0.0.2", port := 12345,
             first_seen := 0, last_seen := 0,
             broadcast_peer := true, registry_peer := false } ∧
    ({ username := "b", address := "10.0.0.2", port := 12345,
       first_seen := 0, last_seen := 0,
       broadcast_peer := true, registry_peer := false : Peer }.broadcast_peer = true ∨
     ({ username := "b", address := "10.0.0.2", port := 12345,
        first_seen := 0, last_seen := 0,
        broadcast_peer := true, registry_peer := false : Peer }).registry_peer = true) := by
  constructor
  · simp [handleAnnouncement, emptyTable]
  · exact peer_table_axis_invariant
      (ReachableTable.ann "a" 12345 "b" "10.0.0.2" 0 ReachableTable.init)
      "b" _ (by simp [handleAnnouncement, emptyTable])

/-- Destination of a targeted `message` datagram in
`UDPPeerDiscovery.send_message` (udp_discovery.py lines 396-407):
`(peer.address, getattr(peer, 'port', config.port))`; the `port` attribute
always exists on a stored row, so the fallback never fires. -/
def messageDest (peer : Peer) : String × Nat := (peer.address, peer.port)

/-- C10.  Handling a broadcast announcement from a peer already in the table
unconditionally overwrites the row's `port` with the locally configured port,
even when the row is registry-attested with a different advertised port, while
leaving the registry flag untouched; a targeted send reading `peer.port`
(`send_message`) then uses the configured port, until the next registry
refresh (`_process_registry_peer`) rewrites the port with the
registry-advertised one. -/
theorem announcement_overwrites_port (selfU : String) (cfgPort : Nat)
    (u ip : String) (now : ℚ) (t : PeerTable) (p : Peer)
    (hp : t u = some p) (hne : u ≠ selfU) :
    ∃ p', (handleAnnouncement selfU cfgPort u ip now t) u = some p' ∧
      p'.port = cfgPort ∧
      p'.registry_peer = p.registry_peer ∧
      messageDest p' = (ip, cfgPort) ∧
      ∀ addr rport nowr,
        (processRegistryPeer u addr rport nowr
            (handleAnnouncement selfU cfgPort u ip now t)) u =
          some { p' with
                 last_seen := nowr, address := addr, port := rport,
                 registry_peer := true } := by
  refine ⟨({ p with
             last_seen := now, address := ip, port := cfgPort,
             broadcast_peer := true }), ?_, rfl, rfl, rfl, ?_⟩
  · unfold handleAnnouncement
    rw [if_neg hne, if_pos rfl, hp]
  · intro addr rport nowr
    unfold processRegistryPeer handleAnnouncement
    rw [if_neg hne]
    simp [hp]

/-- Witness for C10: a registry-attested row for `bob` advertising port 54321
is clobbered back to the configured port 12345 by a broadcast announcement. -/
theorem announcement_overwrites_port_witness :
    ∃ p', (handleAnnouncement "alice" 12345 "bob" "10.0.0.2" 7
        (fun v => if v = "bob" then
          some { username := "bob", address := "10.0.0.9", port := 54321,
                 first_seen := 1, last_seen := 2,
                 broadcast_peer := false, registry_peer := true }
          else none)) "bob" = some p' ∧
      p'.port = 12345 ∧
      p'.registry_peer =
        ({ username := "bob", address := "10.0.0.9", port := 54321,
           first_seen := 1, last_seen := 2,
           broadcast_peer := false, registry_peer := true : Peer }).registry_peer ∧
      messageDest p' = ("10.0.0.2", 12345) ∧
      ∀ addr rport nowr,
        (processRegistryPeer "bob" addr rport nowr
            (handleAnnouncement "alice" 12345 "bob" "10.0.0.2" 7
              (fun v => if v = "bob" then
                some { username := "bob", address := "10.0.0.9", port := 54321,
                       first_seen := 1, last_seen := 2,
                       broadcast_peer := false, registry_peer := true }
                else none))) "bob" =
          some { p' with
                 last_seen := nowr, address := addr, port := rport,
                 registry_peer := true } :=
  announcement_overwrites_port "alice" 12345 "bob" "10.0.0.2" 7 _ _
    (by simp) (by decide)

/-! ## Resource catalog (`lanshare/core/file_share.py`) -/

/-- `SharedResource` (file_share.py lines 32-160).  `allowed_users` is a
Python `set`, embedded as a list read up to membership; `timestamp` and
`modified_time` are wall-clock instants. -/
structure SharedResource where
  id : String
  owner : String
  path : String
  is_directory : Bool
  allowed_users : List String
  shared_to_all : Bool
  timestamp : ℚ
  ftp_password : Option String
  modified_time : ℚ
  deriving Repr, DecidableEq

/-- `SharedResource.can_access` (file_share.py lines 135-146). -/
def SharedResource.canAccess (r : SharedResource) (username : String) : Bool :=
  r.owner == username || r.allowed_users.contains username || r.shared_to_all

/-- `SharedResource.add_user`: Python `set.add`. -/
def SharedResource.addUser (r : SharedResource) (username : String) : SharedResource :=
  if r.allowed_users.contains username then r
  else { r with allowed_users := r.allowed_users ++ [username] }

/-- `SharedResource.remove_user`: removal guarded by membership
(file_share.py lines 126-133). -/
def SharedResource.removeUser (r : SharedResource) (username : String) : SharedResource :=
  { r with allowed_users := r.allowed_users.filter (fun u => !(u == username)) }

/-- Python-dict update `d[k] = v`: replace in place when the key is present,
append otherwise (insertion order preserved, as in CPython). -/
def dictSet (k : String) (v : α) : List (String × α) → List (String × α)
  | [] => [(k, v)]
  | kv :: rest => if kv.1 = k then (k, v) :: rest else kv :: dictSet k v rest

/-- Python-dict deletion `del d[k]`. -/
def dictErase (k : String) (l : List (String × α)) : List (String × α) :=
  l.filter (fun kv => !(kv.1 == k))

/-- The content of the persisted catalog file `.shared_resources.json`
written by `FileShareManager._save_resources` (file_share.py lines 280-292):
the three lists `shared`, `received`, `downloaded`. -/
structure CatalogFile where
  shared : List SharedResource
  received : List SharedResource
  downloaded : List String
  deriving Repr, DecidableEq

/-- The in-memory state of `FileShareManager`: the owned map
(`shared_resources`), the received map (`received_resources`), the download
hysteresis set (`downloaded_resources`), and the last persisted catalog file
(`none` until the first save). -/
structure FileShareState where
  shared_resources : List (String × SharedResource)
  received_resources : List (String × SharedResource)
  downloaded_resources : List String
  persisted : Option CatalogFile
  deriving Repr, DecidableEq

/-- `FileShareManager._save_resources`: rewrite the catalog file from the
in-memory maps. -/
def saveResources (m : FileShareState) : FileShareState :=
  { m with
    persisted := some (CatalogFile.mk
      (m.shared_resources.map (fun kv => kv.2))
      (m.received_resources.map (fun kv => kv.2))
      m.downloaded_resources) }

/-- `UDPPeerDiscovery._cleanup_disconnected_peer_resources` (udp_discovery.py
lines 290-325): collect the received resources owned by the departed user,
then for each one delete it from `downloaded_resources` and from
`received_resources` by its id, and save when anything was removed.  (Each
removed resource's materialized copy is also deleted from disk —
`_remove_shared_resource` — an I/O effect outside the in-memory state.) -/
def cleanupDisconnectedPeerResources (username : String)
    (m : FileShareState) : FileShareState :=
  let toRemove :=
    (m.received_resources.filter (fun kv => kv.2.owner == username)).map (fun kv => kv.2)
  let m' : FileShareState :=
    { m with
      downloaded_resources :=
        toRemove.foldl (fun acc r => acc.filter (fun i => !(i == r.id)))
          m.downloaded_resources,
      received_resources :=
        toRemove.foldl (fun acc r => dictErase r.id acc) m.received_resources }
  if toRemove.isEmpty then m' else saveResources m'

/-- Combined discovery state: the peer dictionary together with the file-share
manager's in-memory catalog (`UDPPeerDiscovery.peers` +
`UDPPeerDiscovery.file_share_manager`). -/
structure SysState where
  peers : PeerTable
  fs : FileShareState

/-- `UDPPeerDiscovery._handle_disconnection` on the combined state: on the
broadcast-only branch the row is deleted *and*
`_cleanup_disconnected_peer_resources` purges the departed owner's received
resources; on the registry-attested branch only the broadcast flag drops and
the catalog is untouched. -/
def discSys (selfU pu : String) (s : SysState) : SysState :=
  if pu = "" ∨ pu = selfU then s
  else match s.peers pu with
    | none => s
    | some p =>
      if p.registry_peer then
        { s with peers := fun v =>
            if v = pu then some { p with broadcast_peer := false } else s.peers v }
      else
        { peers := fun v => if v = pu then none else s.peers v,
          fs := cleanupDisconnectedPeerResources pu s.fs }

/-- `UDPPeerDiscovery.list_peers` on the combined state: the lazy liveness
sweep deletes rows but never touches the file-share manager (the source calls
no catalog purge on this path). -/
def sweepSys (timeout now : ℚ) (s : SysState) : SysState :=
  { s with peers := listPeersSweep timeout now s.peers }

/-- `RegistryClient` state relevant to the disappeared-peer diff: the combined
discovery state plus the `known_registry_peers` / `seen_registry_peers`
sets. -/
structure RegistrySysState where
  sys : SysState
  known_registry_peers : List String
  seen_registry_peers : List String

/-- Body of the loop in `RegistryClient._check_disappeared_peers`
(registry.py lines 322-345) for one username drawn from
`known_registry_peers`: when the username was not seen in the current poll,
the catalog purge `_cleanup_disconnected_peer_resources` always runs (when the
row exists), the registry flag drops (row kept if broadcast-attested, deleted
otherwise), and the username leaves `known_registry_peers`. -/
def checkDisappearedStep (pu : String) (st : RegistrySysState) : RegistrySysState :=
  if st.seen_registry_peers.contains pu then st
  else
    let st1 :=
      match st.sys.peers pu with
      | none => st
      | some p =>
        let fs' := cleanupDisconnectedPeerResources pu st.sys.fs
        let peers' : PeerTable :=
          if p.broadcast_peer then
            fun v => if v = pu then some { p with registry_peer := false }
                     else st.sys.peers v
          else
            fun v => if v = pu then none else st.sys.peers v
        { st with sys := { peers := peers', fs := fs' } }
    { st1 with known_registry_peers :=
        st1.known_registry_peers.filter (fun u => !(u == pu)) }

/-- The received map is keyed by the stored resource's own `id`: every write
site of the source uses `received_resources[resource.id] = resource`. -/
def KeyedById (l : List (String × SharedResource)) : Prop :=
  ∀ kv ∈ l, kv.2.id = kv.1

theorem mem_foldl_dictErase {rs : List SharedResource}
    {l : List (String × SharedResource)} {x : String × SharedResource}
    (hx : x ∈ rs.foldl (fun acc r => dictErase r.id acc) l) :
    x ∈ l ∧ ∀ r ∈ rs, ¬(x.1 = r.id) := by
  induction rs generalizing l with
  | nil => exact ⟨hx, by intro r hr; cases hr⟩
  | cons r rs ih =>
    have h1 := ih (l := dictErase r.id l) hx
    have h2 : x ∈ l ∧ ¬(x.1 = r.id) := by
      have := h1.1
      unfold dictErase at this
      have hmem := List.mem_filter.mp this
      refine ⟨hmem.1, ?_⟩
      intro hid
      simp [hid] at hmem
    refine ⟨h2.1, ?_⟩
    intro r' hr'
    rcases List.mem_cons.mp hr' with h | h
    · subst h; exact h2.2
    · exact h1.2 r' h

/-- After `_cleanup_disconnected_peer_resources(username)` the received map
holds no resource owned by `username` (given the key-equals-id discipline of
the map). -/
theorem cleanup_purges_received (username : String) (m : FileShareState)
    (hkey : KeyedById m.received_resources) :
    ∀ kv ∈ (cleanupDisconnectedPeerResources username m).received_resources,
      kv.2.owner ≠ username := by
  intro kv hkv howner
  have hrec : kv ∈
      ((m.received_resources.filter (fun kv => kv.2.owner == username)).map
          (fun kv => kv.2)).foldl (fun acc r => dictErase r.id acc)
        m.received_resources := by
    unfold cleanupDisconnectedPeerResources at hkv
    dsimp only at hkv
    split at hkv
    · exact hkv
    · exact hkv
  have h := mem_foldl_dictErase hrec
  have hkv2 : kv.2 ∈
      (m.received_resources.filter (fun kv => kv.2.owner == username)).map
        (fun kv => kv.2) :=
    List.mem_map_of_mem _ (List.mem_filter.mpr ⟨h.1, by simp [howner]⟩)
  exact h.2 kv.2 hkv2 (hkey kv h.1).symm

/-- A received resource owned by `alice`, used in the concrete scenarios
below. -/
def aliceResource : SharedResource :=
  { id := "alice_1_x.txt", owner := "alice", path := "/tmp/x.txt",
    is_directory := false, allowed_users := ["bob"], shared_to_all := false,
    timestamp := 1, ftp_password := some "anonymous", modified_time := 1 }

/-- A peer row for `alice`, attested by broadcast only, last beacon at
instant 0. -/
def alicePeer : Peer :=
  { username := "alice", address := "10.0.0.9", port := 12345,
    first_seen := 0, last_seen := 0,
    broadcast_peer := true, registry_peer := false }

/-- A combined state: `alice` in the peer table (broadcast-only), one of her
resources in the received catalog. -/
def aliceSys : SysState :=
  { peers := fun v => if v = "alice" then some alicePeer else none,
    fs := { shared_resources := [],
            received_resources := [("alice_1_x.txt", aliceResource)],
            downloaded_resources := ["alice_1_x.txt"], persisted := none } }

/-- A peer row for `alice`, attested by registry only (advertised port
54321). -/
def aliceRegistryOnlyPeer : Peer :=
  { username := "alice", address := "10.0.0.9", port := 54321,
    first_seen := 0, last_seen := 0,
    broadcast_peer := false, registry_peer := true }

/-- A combined state: `alice` registry-only in the peer table, one of her
resources in the received catalog. -/
def aliceRegSys : SysState :=
  { peers := fun v => if v = "alice" then some aliceRegistryOnlyPeer else none,
    fs := aliceSys.fs }

/-- `RegistryClient._cleanup_registry_peers` (registry.py lines 158-178) on
the combined state: rows drop their registry flag or are deleted exactly as
in `cleanupRegistryPeers`; the method never touches the file-share manager,
so no resource purge happens on this path. -/
def unregSys (s : SysState) : SysState :=
  { s with peers := cleanupRegistryPeers s.peers }

/-- C1 counterexample.  Two of the deletion cases leave the received catalog
unpurged.  (a) A broadcast-only peer `alice` whose beacon has timed out
(timeout 2 s, 10 s elapsed) is deleted by the lazy sweep of `list_peers`, yet
the received catalog still holds a resource with `owner == "alice"`
immediately afterwards: the sweep path never notifies the resource catalog.
(b) A registry-only `alice` row is deleted by the unregister-time
`_cleanup_registry_peers` — the registry axis goes false while the broadcast
axis is already false — and again her resource survives in the received
catalog: that path never notifies the catalog either. -/
theorem sweep_deletion_skips_purge_counterexample :
    ((sweepSys 2 10 aliceSys).peers "alice" = none ∧
      ("alice_1_x.txt", aliceResource) ∈
        (sweepSys 2 10 aliceSys).fs.received_resources) ∧
      ((unregSys aliceRegSys).peers "alice" = none ∧
        ("alice_1_x.txt", aliceResource) ∈
          (unregSys aliceRegSys).fs.received_resources) ∧
      aliceResource.owner = "alice" := by
  refine ⟨⟨?_, ?_⟩, ⟨?_, ?_⟩, rfl⟩
  · show (aliceSys.peers "alice").bind (sweepPeer 2 10) = none
    simp only [aliceSys, if_pos rfl, Option.some_bind, sweepPeer, alicePeer]
    norm_num
  · show _ ∈ [("alice_1_x.txt", aliceResource)]
    exact List.mem_singleton.mpr rfl
  · show cleanupRegistryPeers aliceRegSys.peers "alice" = none
    simp [cleanupRegistryPeers, aliceRegSys, aliceRegistryOnlyPeer]
  · show _ ∈ [("alice_1_x.txt", aliceResource)]
    exact List.mem_singleton.mpr rfl

/-- C1 amended.  A row deletion performed by `_handle_disconnection`
(broadcast-only departure) or by `_check_disappeared_peers` (registry
disappearance) purges the departed owner's received resources: immediately
after such a deletion no received resource has `owner == username`.
(Deletions by the lazy `list_peers` sweep and by the unregister-time
`_cleanup_registry_peers` do not notify the catalog — see the
counterexample, which exhibits both.) -/
theorem row_deletion_purges_received (pu : String) :
    (∀ (selfU : String) (s : SysState), KeyedById s.fs.received_resources →
      ∀ p, s.peers pu = some p → (discSys selfU pu s).peers pu = none →
        ∀ kv ∈ (discSys selfU pu s).fs.received_resources, kv.2.owner ≠ pu) ∧
    (∀ st : RegistrySysState, KeyedById st.sys.fs.received_resources →
      ∀ p, st.sys.peers pu = some p →
        (checkDisappearedStep pu st).sys.peers pu = none →
          ∀ kv ∈ (checkDisappearedStep pu st).sys.fs.received_resources,
            kv.2.owner ≠ pu) := by
  constructor
  · intro selfU s hkey p hp hdel
    unfold discSys at hdel ⊢
    by_cases hguard : pu = "" ∨ pu = selfU
    · rw [if_pos hguard] at hdel; rw [hp] at hdel; simp at hdel
    · rw [if_neg hguard] at hdel ⊢
      simp only [hp] at hdel ⊢
      by_cases hr : p.registry_peer
      · rw [if_pos hr] at hdel; simp at hdel
      · rw [if_neg hr]
        exact cleanup_purges_received pu s.fs hkey
  · intro st hkey p hp hdel
    unfold checkDisappearedStep at hdel ⊢
    by_cases hseen : st.seen_registry_peers.contains pu
    · rw [if_pos hseen] at hdel; rw [hp] at hdel; simp at hdel
    · rw [if_neg hseen] at hdel ⊢
      simp only [hp] at hdel ⊢
      exact cleanup_purges_received pu st.sys.fs hkey

/-- Witness for the amended C1: the concrete broadcast-only peer `alice` is
deleted by a disconnection packet and her received resource disappears from
the catalog. -/
theorem row_deletion_purges_received_witness :
    ∀ kv ∈ (discSys "bob" "alice" aliceSys).fs.received_resources,
      kv.2.owner ≠ "alice" := by
  intro kv hkv
  exact (row_deletion_purges_received "alice").1 "bob" aliceSys
    (by intro x hx; fin_cases hx; rfl)
    alicePeer (by decide) (by decide) kv hkv

/-- C4.  For a username `pu` present in the previous registry poll
(`known_registry_peers`) but absent from the current one
(`seen_registry_peers`), with a stored row `p`, the disappeared-peer handler
always purges `pu`'s received resources — regardless of the broadcast flag —
and drops the registry axis: the row survives with `registry_peer = false`
when broadcast-attested and is removed entirely otherwise. -/
theorem registry_disappearance_always_purges (pu : String)
    (st : RegistrySysState) (p : Peer)
    (hknown : st.known_registry_peers.contains pu = true)
    (hseen : st.seen_registry_peers.contains pu = false)
    (hp : st.sys.peers pu = some p)
    (hkey : KeyedById st.sys.fs.received_resources) :
    (∀ kv ∈ (checkDisappearedStep pu st).sys.fs.received_resources,
        kv.2.owner ≠ pu) ∧
      (p.broadcast_peer = true →
        (checkDisappearedStep pu st).sys.peers pu =
          some { p with registry_peer := false }) ∧
      (p.broadcast_peer = false →
        (checkDisappearedStep pu st).sys.peers pu = none) := by
  have hseen' : ¬(st.seen_registry_peers.contains pu = true) := by
    rw [hseen]; exact Bool.false_ne_true
  refine ⟨?_, ?_, ?_⟩
  · unfold checkDisappearedStep
    rw [if_neg hseen']
    simp only [hp]
    exact cleanup_purges_received pu st.sys.fs hkey
  · intro hb
    unfold checkDisappearedStep
    rw [if_neg hseen']
    simp [hp, hb]
  · intro hb
    unfold checkDisappearedStep
    rw [if_neg hseen']
    simp [hp, hb]

/-- Witness for C4: `alice` known from the previous poll, absent from the
current one, broadcast-attested row — the resource purge and the registry
mark both happen. -/
theorem registry_disappearance_always_purges_witness :
    (∀ kv ∈ (checkDisappearedStep "alice"
        ⟨aliceSys, ["alice"], []⟩).sys.fs.received_resources,
        kv.2.owner ≠ "alice") ∧
      (alicePeer.broadcast_peer = true →
        (checkDisappearedStep "alice" ⟨aliceSys, ["alice"], []⟩).sys.peers "alice" =
          some { alicePeer with registry_peer := false }) ∧
      (alicePeer.broadcast_peer = false →
        (checkDisappearedStep "alice" ⟨aliceSys, ["alice"], []⟩).sys.peers "alice" =
          none) :=
  registry_disappearance_always_purges "alice" ⟨aliceSys, ["alice"], []⟩
    alicePeer (by decide) (by decide) (by decide)
    (by intro x hx; fin_cases hx; rfl)

/-! ## Owned-catalog mutators and the share operation -/

/-- Outbound UDP traffic of the file-share manager: a targeted
`add_access`/`remove_access` datagram to one peer, or a broadcast `announce`
to `(<broadcast>, port)`. -/
inductive SentPacket where
  | targeted (addr : String) (port : Nat) (action : String)
      (resource_id username : String)
  | broadcastAnnounce (port : Nat) (resource : SharedResource)
  deriving Repr, DecidableEq

/-- `FileShareManager.update_resource_access` (file_share.py lines 529-585):
unknown resource id or non-owner returns `false` untouched; otherwise the ACL
is edited in place, the catalog is saved, and — when the affected user is in
the peer table — a targeted datagram goes to
`(peer.address, self.config.port)` (the *configured* port), followed for
`add` by a broadcast re-announcement. -/
def updateResourceAccess (selfU : String) (cfgPort : Nat) (peers : PeerTable)
    (m : FileShareState) (resource_id username : String) (add : Bool) :
    Bool × FileShareState × List SentPacket :=
  match List.lookup resource_id m.shared_resources with
  | none => (false, m, [])
  | some resource =>
    if resource.owner ≠ selfU then (false, m, [])
    else
      let resource' := if add then resource.addUser username
                       else resource.removeUser username
      let action := if add then "add_access" else "remove_access"
      let m' := saveResources
        { m with shared_resources := dictSet resource_id resource' m.shared_resources }
      match peers username with
      | some peer =>
        (true, m',
          SentPacket.targeted peer.address cfgPort action resource_id username ::
            if add then [SentPacket.broadcastAnnounce cfgPort resource'] else [])
      | none => (true, m', [])

/-- `FileShareManager.set_share_to_all` (file_share.py lines 587-612): unknown
resource id or non-owner returns `false` untouched; otherwise the flag is
set, the catalog saved, and the resource re-announced by broadcast. -/
def setShareToAll (selfU : String) (cfgPort : Nat) (m : FileShareState)
    (resource_id : String) (share_to_all : Bool) :
    Bool × FileShareState × List SentPacket :=
  match List.lookup resource_id m.shared_resources with
  | none => (false, m, [])
  | some resource =>
    if resource.owner ≠ selfU then (false, m, [])
    else
      let resource' := { resource with shared_to_all := share_to_all }
      let m' := saveResources
        { m with shared_resources := dictSet resource_id resource' m.shared_resources }
      (true, m', [SentPacket.broadcastAnnounce cfgPort resource'])

/-- `os.path.basename` for POSIX paths: the component after the last
separator. -/
def basename (s : String) : String :=
  String.mk (s.data.foldl (fun acc c => if c = '/' then [] else acc ++ [c]) [])

/-- The `SharedResource.__init__` constructor (file_share.py lines 47-75):
`id = owner + "_" + int(time.time()) + "_" + basename(path)`, empty ACL,
creation timestamp, and `modified_time` from the filesystem oracle. -/
def mkSharedResource (owner path : String) (is_directory share_to_all : Bool)
    (ftp_password : Option String) (nowEpoch : Nat) (nowTs : ℚ)
    (mtimeOf : String → ℚ) : SharedResource :=
  { id := owner ++ "_" ++ toString nowEpoch ++ "_" ++ basename path,
    owner := owner, path := path, is_directory := is_directory,
    allowed_users := [], shared_to_all := share_to_all,
    timestamp := nowTs, ftp_password := ftp_password,
    modified_time := mtimeOf path }

/-- `FileShareManager._find_existing_shared_resource` (file_share.py lines
1065-1081): the first owned record whose absolutized path equals the
absolutized query and whose owner is the current user. -/
def findExistingSharedResource (selfU : String) (abspath : String → String)
    (m : FileShareState) (path : String) : Option SharedResource :=
  let normalized := abspath path
  (m.shared_resources.find? (fun kv =>
      abspath kv.2.path == normalized && kv.2.owner == selfU)).map (fun kv => kv.2)

/-- Result of `share_resource`: the returned resource (`none` on failure),
the state after the call, the datagrams sent, and the source paths whose
content was materialized (copied or symlinked) into the per-user share
directory. -/
structure ShareResult where
  result : Option SharedResource
  state : FileShareState
  packets : List SentPacket
  materialized : List String
  deriving Repr, DecidableEq

/-- `FileShareManager.share_resource` (file_share.py lines 401-478):
absolutize the path; a missing path returns `None` untouched; an already
shared path returns the existing record idempotently; otherwise a fresh
record is built (FTP password from `default_password = "anonymous"`), the
content is materialized into the share directory (conflict-suffixed target
naming is filesystem-level and not observed here), the record is inserted
into the owned map, the catalog saved, and the resource announced. -/
def shareResource (selfU : String) (cfgPort : Nat)
    (fsExists isDir : String → Bool) (abspath : String → String)
    (mtimeOf : String → ℚ) (nowEpoch : Nat) (nowTs : ℚ)
    (m : FileShareState) (path0 : String) (share_to_all : Bool) : ShareResult :=
  let path := abspath path0
  if !(fsExists path) then ⟨none, m, [], []⟩
  else match findExistingSharedResource selfU abspath m path with
  | some existing => ⟨some existing, m, [], []⟩
  | none =>
    let is_directory := isDir path
    let resource := mkSharedResource selfU path is_directory share_to_all
      (some "anonymous") nowEpoch nowTs mtimeOf
    let m' := saveResources
      { m with shared_resources := dictSet resource.id resource m.shared_resources }
    ⟨some resource, m', [SentPacket.broadcastAnnounce cfgPort resource], [path]⟩

/-- C7.  For a resource id that is not in the owned map, or whose record's
owner differs from the local username, both `update_resource_access` and
`set_share_to_all` return `false`, send nothing, and leave the whole manager
state — both catalog maps and the persisted catalog file — unchanged. -/
theorem acl_violation_returns_false (selfU : String) (cfgPort : Nat)
    (peers : PeerTable) (m : FileShareState) (rid u : String) (add v : Bool)
    (h : ∀ r, List.lookup rid m.shared_resources = some r → r.owner ≠ selfU) :
    updateResourceAccess selfU cfgPort peers m rid u add = (false, m, []) ∧
      setShareToAll selfU cfgPort m rid v = (false, m, []) := by
  constructor
  · unfold updateResourceAccess
    cases hl : List.lookup rid m.shared_resources with
    | none => rfl
    | some r => simp only [hl]; rw [if_pos (h r hl)]
  · unfold setShareToAll
    cases hl : List.lookup rid m.shared_resources with
    | none => rfl
    | some r => simp only [hl]; rw [if_pos (h r hl)]

/-- Witness for C7: a state owning only `"r1"` (owned by `alice`) rejects a
mutation of the unknown id `"zz"` by the non-owner `mallory`. -/
theorem acl_violation_returns_false_witness :
    updateResourceAccess "mallory" 12345 (fun _ => none)
        { shared_resources := [("r1", aliceResource)], received_resources := [],
          downloaded_resources := [], persisted := none } "zz" "bob" true =
      (false,
        { shared_resources := [("r1", aliceResource)], received_resources := [],
          downloaded_resources := [], persisted := none }, []) ∧
      setShareToAll "mallory" 12345
          { shared_resources := [("r1", aliceResource)], received_resources := [],
            downloaded_resources := [], persisted := none } "zz" true =
        (false,
          { shared_resources := [("r1", aliceResource)], received_resources := [],
            downloaded_resources := [], persisted := none }, []) :=
  acl_violation_returns_false "mallory" 12345 (fun _ => none) _ "zz" "bob" true true
    (by intro r hr; simp [List.lookup] at hr)

theorem shareResource_not_exists (selfU : String) (cfgPort : Nat)
    (fsExists isDir : String → Bool) (abspath : String → String)
    (mtimeOf : String → ℚ) (e : Nat) (ts : ℚ) (m : FileShareState)
    (p : String) (sta : Bool) (h : fsExists (abspath p) = false) :
    shareResource selfU cfgPort fsExists isDir abspath mtimeOf e ts m p sta =
      ⟨none, m, [], []⟩ := by
  unfold shareResource
  simp [h]

theorem shareResource_found (selfU : String) (cfgPort : Nat)
    (fsExists isDir : String → Bool) (abspath : String → String)
    (mtimeOf : String → ℚ) (e : Nat) (ts : ℚ) (m : FileShareState)
    (p : String) (sta : Bool) (ex : SharedResource)
    (hex : fsExists (abspath p) = true)
    (hfind : findExistingSharedResource selfU abspath m (abspath p) = some ex) :
    shareResource selfU cfgPort fsExists isDir abspath mtimeOf e ts m p sta =
      ⟨some ex, m, [], []⟩ := by
  unfold shareResource
  simp [hex, hfind]

theorem shareResource_fresh (selfU : String) (cfgPort : Nat)
    (fsExists isDir : String → Bool) (abspath : String → String)
    (mtimeOf : String → ℚ) (e : Nat) (ts : ℚ) (m : FileShareState)
    (p : String) (sta : Bool) (R : SharedResource)
    (hex : fsExists (abspath p) = true)
    (hfind : findExistingSharedResource selfU abspath m (abspath p) = none)
    (hR : R = mkSharedResource selfU (abspath p) (isDir (abspath p)) sta
      (some "anonymous") e ts mtimeOf) :
    shareResource selfU cfgPort fsExists isDir abspath mtimeOf e ts m p sta =
      ⟨some R,
        saveResources { m with shared_resources := dictSet R.id R m.shared_resources },
        [SentPacket.broadcastAnnounce cfgPort R], [abspath p]⟩ := by
  subst hR
  unfold shareResource
  simp [hex, hfind]

/-- C8.  Sharing a path that does not exist on the filesystem returns a null
resource, sends nothing, materializes nothing, and leaves the manager state
(owned map, received map, persisted catalog file) unchanged. -/
theorem share_missing_path_returns_none (selfU : String) (cfgPort : Nat)
    (fsExists isDir : String → Bool) (abspath : String → String)
    (mtimeOf : String → ℚ) (e : Nat) (ts : ℚ) (m : FileShareState)
    (p : String) (sta : Bool) (h : fsExists (abspath p) = false) :
    shareResource selfU cfgPort fsExists isDir abspath mtimeOf e ts m p sta =
      ⟨none, m, [], []⟩ :=
  shareResource_not_exists selfU cfgPort fsExists isDir abspath mtimeOf
    e ts m p sta h

/-- Witness for C8: with a filesystem oracle on which no path exists, sharing
`/tmp/missing` from the empty state is a no-op returning `none`. -/
theorem share_missing_path_returns_none_witness :
    shareResource "alice" 12345 (fun _ => false) (fun _ => false)
        (fun s => s) (fun _ => 1) 5 1
        { shared_resources := [], received_resources := [],
          downloaded_resources := [], persisted := none } "/tmp/missing" false =
      ⟨none,
        { shared_resources := [], received_resources := [],
          downloaded_resources := [], persisted := none }, [], []⟩ :=
  share_missing_path_returns_none "alice" 12345 (fun _ => false) (fun _ => false)
    (fun s => s) (fun _ => 1) 5 1 _ "/tmp/missing" false rfl

/-- An owned resource of `alice` with id `r1`, used by the access-update
scenarios. -/
def r1Resource : SharedResource :=
  { id := "r1", owner := "alice", path := "/tmp/x.txt", is_directory := false,
    allowed_users := [], shared_to_all := false, timestamp := 1,
    ftp_password := some "anonymous", modified_time := 1 }

/-- A registry-known peer `bob` whose registry-advertised port 54321 differs
from the configured port 12345. -/
def bobRegistryPeer : Peer :=
  { username := "bob", address := "10.0.0.2", port := 54321,
    first_seen := 0, last_seen := 0,
    broadcast_peer := false, registry_peer := true }

/-- Peer table holding only the registry-known `bob`. -/
def c2Table : PeerTable := fun v => if v = "bob" then some bobRegistryPeer else none

/-- Manager state owning only `r1`. -/
def c2State : FileShareState :=
  { shared_resources := [("r1", r1Resource)], received_resources := [],
    downloaded_resources := [], persisted := none }

/-- C2 counterexample.  `bob` is registry-known with advertised port 54321,
yet the owner's `update_resource_access` sends the targeted `add_access`
datagram to `(bob.address, 12345)` — the *configured* port — not to
`(peer.address, peer.port)` as the claim requires. -/
theorem targeted_access_update_port_counterexample :
    bobRegistryPeer.registry_peer = true ∧
      bobRegistryPeer.port = 54321 ∧
      (updateResourceAccess "alice" 12345 c2Table c2State "r1" "bob" true).2.2.head? =
        some (SentPacket.targeted "10.0.0.2" 12345 "add_access" "r1" "bob") ∧
      (12345 : Nat) ≠ 54321 :=
  ⟨rfl, rfl, rfl, by decide⟩

/-- C2 amended.  When the owner updates access for a user currently in the
peer table, the targeted `add_access`/`remove_access` datagram is sent to
`(peer.address, config.port)`: always the locally configured port, never the
registry-advertised one. -/
theorem targeted_access_update_uses_config_port (selfU : String)
    (cfgPort : Nat) (peers : PeerTable) (m : FileShareState) (rid u : String)
    (add : Bool) (r : SharedResource) (peer : Peer)
    (hr : List.lookup rid m.shared_resources = some r)
    (hown : r.owner = selfU) (hpeer : peers u = some peer) :
    (updateResourceAccess selfU cfgPort peers m rid u add).2.2.head? =
      some (SentPacket.targeted peer.address cfgPort
        (if add then "add_access" else "remove_access") rid u) := by
  unfold updateResourceAccess
  simp only [hr]
  rw [if_neg (by simp [hown])]
  simp only [hpeer]
  cases add <;> rfl

/-- Witness for the amended C2: the concrete scenario of the counterexample,
through the theorem. -/
theorem targeted_access_update_uses_config_port_witness :
    (updateResourceAccess "alice" 12345 c2Table c2State "r1" "bob" true).2.2.head? =
      some (SentPacket.targeted bobRegistryPeer.address 12345
        (if true then "add_access" else "remove_access") "r1" "bob") :=
  targeted_access_update_uses_config_port "alice" 12345 c2Table c2State "r1"
    "bob" true r1Resource bobRegistryPeer rfl rfl rfl

theorem find?_dictSet (q : String × SharedResource → Bool) (k : String)
    (v : SharedResource) (l : List (String × SharedResource))
    (hl : ∀ kv ∈ l, q kv = false) (hv : q (k, v) = true) :
    (dictSet k v l).find? q = some (k, v) := by
  induction l with
  | nil => simp [dictSet, List.find?, hv]
  | cons kv rest ih =>
    unfold dictSet
    by_cases hk : kv.1 = k
    · rw [if_pos hk]
      simp [List.find?, hv]
    · rw [if_neg hk]
      rw [List.find?_cons_of_neg _ (by simp [hl kv (List.mem_cons_self kv rest)])]
      exact ih (fun kv2 h2 => hl kv2 (List.mem_cons_of_mem kv h2))

/-- C6.  If `share_resource(p)` succeeds, a second call with the same path by
the same user and no intervening removal returns the very same record (same
`resource_id`), adds no owned record, persists nothing new, sends nothing and
materializes no new copy: share is idempotent per absolute path. -/
theorem share_resource_idempotent (selfU : String) (cfgPort : Nat)
    (fsExists isDir : String → Bool) (abspath : String → String)
    (mtimeOf : String → ℚ) (e1 e2 : Nat) (t1 t2 : ℚ) (m : FileShareState)
    (p : String) (sta stb : Bool) (r : SharedResource)
    (h1 : (shareResource selfU cfgPort fsExists isDir abspath mtimeOf
            e1 t1 m p sta).result = some r) :
    shareResource selfU cfgPort fsExists isDir abspath mtimeOf e2 t2
        (shareResource selfU cfgPort fsExists isDir abspath mtimeOf
          e1 t1 m p sta).state p stb =
      ⟨some r,
        (shareResource selfU cfgPort fsExists isDir abspath mtimeOf
          e1 t1 m p sta).state, [], []⟩ := by
  by_cases hex : fsExists (abspath p) = true
  · cases hfind : findExistingSharedResource selfU abspath m (abspath p) with
    | some ex =>
      have hout := shareResource_found selfU cfgPort fsExists isDir abspath
        mtimeOf e1 t1 m p sta ex hex hfind
      rw [hout] at h1 ⊢
      replace h1 : some ex = some r := h1
      cases h1
      exact shareResource_found selfU cfgPort fsExists isDir abspath
        mtimeOf e2 t2 m p stb _ hex hfind
    | none =>
      have hout := shareResource_fresh selfU cfgPort fsExists isDir abspath
        mtimeOf e1 t1 m p sta _ hex hfind rfl
      rw [hout] at h1 ⊢
      replace h1 : some (mkSharedResource selfU (abspath p) (isDir (abspath p))
          sta (some "anonymous") e1 t1 mtimeOf) = some r := h1
      rw [Option.some_inj] at h1
      have hnone : ∀ kv ∈ m.shared_resources,
          (fun kv : String × SharedResource =>
            abspath kv.2.path == abspath (abspath p) && kv.2.owner == selfU) kv
            = false := by
        intro kv hkv
        have h' : (m.shared_resources.find? (fun kv =>
            abspath kv.2.path == abspath (abspath p) && kv.2.owner == selfU))
            = none := by
          unfold findExistingSharedResource at hfind
          simpa using hfind
        exact Bool.eq_false_iff.mpr (List.find?_eq_none.mp h' kv hkv)
      have hv : (fun kv : String × SharedResource =>
          abspath kv.2.path == abspath (abspath p) && kv.2.owner == selfU)
          (r.id, r) = true := by
        rw [← h1]
        simp [mkSharedResource]
      have hfind2 : findExistingSharedResource selfU abspath
          (saveResources { m with shared_resources := dictSet r.id r m.shared_resources })
          (abspath p) = some r := by
        show ((dictSet r.id r m.shared_resources).find? (fun kv =>
            abspath kv.2.path == abspath (abspath p) && kv.2.owner == selfU)).map
            (fun kv => kv.2) = some r
        rw [find?_dictSet _ _ _ _ hnone hv]
        rfl
      have hfinal := shareResource_found selfU cfgPort fsExists isDir abspath
        mtimeOf e2 t2
        (saveResources { m with shared_resources := dictSet r.id r m.shared_resources })
        p stb r hex hfind2
      rw [h1]
      exact hfinal
  · exfalso
    have hout := shareResource_not_exists selfU cfgPort fsExists isDir abspath
      mtimeOf e1 t1 m p sta (Bool.eq_false_iff.mpr hex)
    rw [hout] at h1
    replace h1 : (none : Option SharedResource) = some r := h1
    cases h1

/-- Witness for C6: sharing `/tmp/x.txt` twice from the empty state (identity
`abspath`, everything exists, constant mtime) returns the same record and
changes nothing on the second call. -/
theorem share_resource_idempotent_witness :
    (shareResource "alice" 12345 (fun _ => true) (fun _ => false) (fun s => s)
        (fun _ => 1) 5 1
        { shared_resources := [], received_resources := [],
          downloaded_resources := [], persisted := none } "/tmp/x.txt" false).result =
      some (mkSharedResource "alice" "/tmp/x.txt" false false (some "anonymous")
        5 1 (fun _ => 1)) ∧
    shareResource "alice" 12345 (fun _ => true) (fun _ => false) (fun s => s)
        (fun _ => 1) 7 2
        (shareResource "alice" 12345 (fun _ => true) (fun _ => false) (fun s => s)
          (fun _ => 1) 5 1
          { shared_resources := [], received_resources := [],
            downloaded_resources := [], persisted := none } "/tmp/x.txt" false).state
        "/tmp/x.txt" true =
      ⟨some (mkSharedResource "alice" "/tmp/x.txt" false false (some "anonymous")
          5 1 (fun _ => 1)),
        (shareResource "alice" 12345 (fun _ => true) (fun _ => false) (fun s => s)
          (fun _ => 1) 5 1
          { shared_resources := [], received_resources := [],
            downloaded_resources := [], persisted := none } "/tmp/x.txt" false).state,
        [], []⟩ :=
  ⟨rfl,
    share_resource_idempotent "alice" 12345 (fun _ => true) (fun _ => false)
      (fun s => s) (fun _ => 1) 5 7 1 2
      { shared_resources := [], received_resources := [],
        downloaded_resources := [], persisted := none } "/tmp/x.txt" false true
      (mkSharedResource "alice" "/tmp/x.txt" false false (some "anonymous")
        5 1 (fun _ => 1)) rfl⟩

/-! ## Rendezvous server (`src/registry.py`) -/

/-- A rendezvous-server peer record: the `{username, address, port,
last_seen}` dictionary stored in the server's `peers` map. -/
structure RegEntry where
  username : String
  address : String
  port : Nat
  last_seen : ℚ
  deriving Repr, DecidableEq

/-- `get_peers` (registry.py lines 100-118): first delete from the map every
entry whose `last_seen` is more than 30 seconds before the request time, then
return the remaining values as the response array.  The result is the updated
map together with the returned list. -/
def getPeers (now : ℚ) (peers : List (String × RegEntry)) :
    List (String × RegEntry) × List RegEntry :=
  let remaining := peers.filter (fun kv => !(decide (now - kv.2.last_seen > 30)))
  (remaining, remaining.map (fun kv => kv.2))

/-- C9.  A `GET /peers` request first evicts every entry silent for more than
30 seconds and then returns exactly the remaining entries: an entry survives
iff `now - last_seen ≤ 30`, the response is exactly the surviving values, and
an entry silent for `30 + ε` seconds (`ε > 0`) is absent. -/
theorem get_peers_evicts_stale (now : ℚ) (peers : List (String × RegEntry)) :
    (∀ kv, kv ∈ (getPeers now peers).1 ↔
        kv ∈ peers ∧ now - kv.2.last_seen ≤ 30) ∧
      (getPeers now peers).2 = ((getPeers now peers).1).map (fun kv => kv.2) ∧
      (∀ kv ∈ peers, ∀ ε : ℚ, 0 < ε → now - kv.2.last_seen = 30 + ε →
        kv ∉ (getPeers now peers).1) := by
  refine ⟨?_, rfl, ?_⟩
  · intro kv
    unfold getPeers
    rw [List.mem_filter]
    constructor
    · rintro ⟨h1, h2⟩
      refine ⟨h1, ?_⟩
      simp only [Bool.not_eq_true', decide_eq_false_iff_not, not_lt] at h2
      exact h2
    · rintro ⟨h1, h2⟩
      refine ⟨h1, ?_⟩
      simp only [Bool.not_eq_true', decide_eq_false_iff_not, not_lt]
      exact h2
  · intro kv hkv ε hε heq hmem
    have hle : now - kv.2.last_seen ≤ 30 := by
      have h2 := (List.mem_filter.mp hmem).2
      simp only [Bool.not_eq_true', decide_eq_false_iff_not, not_lt] at h2
      exact h2
    rw [heq] at hle
    linarith

/-- Witness for C9: with the request at instant 31, the entry last seen at
instant 0 (silent for 31 = 30 + 1 seconds) is absent from the response. -/
theorem get_peers_evicts_stale_witness :
    ("stale", RegEntry.mk "stale" "10.0.0.3" 12345 0) ∈
        [("stale", RegEntry.mk "stale" "10.0.0.3" 12345 0)] ∧
      (0 : ℚ) < 1 ∧
      (31 : ℚ) - (RegEntry.mk "stale" "10.0.0.3" 12345 0).last_seen = 30 + 1 ∧
      ("stale", RegEntry.mk "stale" "10.0.0.3" 12345 0) ∉
        (getPeers 31 [("stale", RegEntry.mk "stale" "10.0.0.3" 12345 0)]).1 :=
  ⟨List.mem_singleton.mpr rfl, by norm_num, by norm_num,
    (get_peers_evicts_stale 31 [("stale", RegEntry.mk "stale" "10.0.0.3" 12345 0)]).2.2
      ("stale", RegEntry.mk "stale" "10.0.0.3" 12345 0)
      (List.mem_singleton.mpr rfl) 1 (by norm_num) (by norm_num)⟩

/-! ## Conversation ids (`UDPPeerDiscovery._generate_conversation_id`)

`hashlib.md5` is embedded as the RFC 1321 MD5 algorithm over byte lists, with
32-bit machine words as naturals reduced mod `2^32`; it is validated below
against the RFC 1321 test vectors. -/

/-- `2^32`, the word modulus of MD5. -/
def M32 : Nat := 4294967296

/-- Bitwise complement within 32 bits. -/
def not32 (a : Nat) : Nat := Nat.xor a 4294967295

/-- 32-bit left rotation. -/
def rotl32 (x s : Nat) : Nat :=
  Nat.lor ((x <<< s) % M32) (x >>> (32 - s))

/-- The MD5 sine-derived constant table `K` (RFC 1321). -/
def md5K : List Nat :=
  [0xd76aa478, 0xe8c7b756, 0x242070db, 0xc1bdceee,
   0xf57c0faf, 0x4787c62a, 0xa8304613, 0xfd469501,
   0x698098d8, 0x8b44f7af, 0xffff5bb1, 0x895cd7be,
   0x6b901122, 0xfd987193, 0xa679438e, 0x49b40821,
   0xf61e2562, 0xc040b340, 0x265e5a51, 0xe9b6c7aa,
   0xd62f105d, 0x02441453, 0xd8a1e681, 0xe7d3fbc8,
   0x21e1cde6, 0xc33707d6, 0xf4d50d87, 0x455a14ed,
   0xa9e3e905, 0xfcefa3f8, 0x676f02d9, 0x8d2a4c8a,
   0xfffa3942, 0x8771f681, 0x6d9d6122, 0xfde5380c,
   0xa4beea44, 0x4bdecfa9, 0xf6bb4b60, 0xbebfbc70,
   0x289b7ec6, 0xeaa127fa, 0xd4ef3085, 0x04881d05,
   0xd9d4d039, 0xe6db99e5, 0x1fa27cf8, 0xc4ac5665,
   0xf4292244, 0x432aff97, 0xab9423a7, 0xfc93a039,
   0x655b59c3, 0x8f0ccc92, 0xffeff47d, 0x85845dd1,
   0x6fa87e4f, 0xfe2ce6e0, 0xa3014314, 0x4e0811a1,
   0xf7537e82, 0xbd3af235, 0x2ad7d2bb, 0xeb86d391]

/-- The MD5 per-round shift table `s` (RFC 1321). -/
def md5S : List Nat :=
  [7, 12, 17, 22, 7, 12, 17, 22, 7, 12, 17, 22, 7, 12, 17, 22,
   5, 9, 14, 20, 5, 9, 14, 20, 5, 9, 14, 20, 5, 9, 14, 20,
   4, 11, 16, 23, 4, 11, 16, 23, 4, 11, 16, 23, 4, 11, 16, 23,
   6, 10, 15, 21, 6, 10, 15, 21, 6, 10, 15, 21, 6, 10, 15, 21]

/-- Little-endian byte expansion of a value into `n` bytes. -/
def leBytes : Nat → Nat → List Nat
  | 0, _ => []
  | n + 1, v => (v % 256) :: leBytes n (v / 256)

/-- MD5 padding: append `0x80`, zero-fill to 56 mod 64, append the 64-bit
little-endian bit length. -/
def md5Pad (msg : List Nat) : List Nat :=
  let len := msg.length
  let padZeros := (119 - len % 64) % 64
  msg ++ [0x80] ++ List.replicate padZeros 0 ++ leBytes 8 ((len * 8) % 2 ^ 64)

/-- Group bytes into little-endian 32-bit words. -/
def toWords : List Nat → List Nat
  | b0 :: b1 :: b2 :: b3 :: rest =>
    (b0 + 256 * b1 + 65536 * b2 + 16777216 * b3) :: toWords rest
  | _ => []

/-- One MD5 round `i` (0-based) on state `(A, B, C, D)` with message words
`mws`. -/
def md5Round (mws : List Nat) (i : Nat) :
    Nat × Nat × Nat × Nat → Nat × Nat × Nat × Nat
  | (a, b, c, d) =>
    let fg : Nat × Nat :=
      if i < 16 then (Nat.lor (Nat.land b c) (Nat.land (not32 b) d), i)
      else if i < 32 then
        (Nat.lor (Nat.land d b) (Nat.land (not32 d) c), (5 * i + 1) % 16)
      else if i < 48 then (Nat.xor (Nat.xor b c) d, (3 * i + 5) % 16)
      else (Nat.xor c (Nat.lor b (not32 d)), (7 * i) % 16)
    let f := (fg.1 + a + md5K.getD i 0 + mws.getD fg.2 0) % M32
    (d, (b + rotl32 f (md5S.getD i 0)) % M32, b, c)

/-- Run MD5 rounds `i, i+1, ...` for `fuel` steps. -/
def md5RoundsGo (mws : List Nat) : Nat → Nat →
    Nat × Nat × Nat × Nat → Nat × Nat × Nat × Nat
  | 0, _, st => st
  | fuel + 1, i, st => md5RoundsGo mws fuel (i + 1) (md5Round mws i st)

/-- Process one 16-word chunk: 64 rounds, then add the chunk result into the
running state mod `2^32`. -/
def md5Chunk (mws : List Nat) (st : Nat × Nat × Nat × Nat) :
    Nat × Nat × Nat × Nat :=
  let r := md5RoundsGo mws 64 0 st
  ((st.1 + r.1) % M32, (st.2.1 + r.2.1) % M32,
   (st.2.2.1 + r.2.2.1) % M32, (st.2.2.2 + r.2.2.2) % M32)

/-- Process the word stream 16 words at a time (`fuel` bounds the number of
blocks; `fuel = length + 1` always suffices). -/
def md5ProcessGo : Nat → List Nat → Nat × Nat × Nat × Nat →
    Nat × Nat × Nat × Nat
  | 0, _, st => st
  | fuel + 1, ws, st =>
    if ws.isEmpty then st
    else md5ProcessGo fuel (ws.drop 16) (md5Chunk (ws.take 16) st)

/-- A lowercase hexadecimal digit. -/
def hexDigit (n : Nat) : Char :=
  if n < 10 then Char.ofNat (48 + n) else Char.ofNat (87 + n)

/-- Two lowercase hex characters of one byte. -/
def byteToHex (b : Nat) : List Char := [hexDigit (b / 16), hexDigit (b % 16)]

/-- Little-endian hex rendering of one 32-bit word (byte order as in
`hexdigest`). -/
def wordLEHex (w : Nat) : List Char :=
  byteToHex (w % 256) ++ byteToHex (w / 256 % 256) ++
    byteToHex (w / 65536 % 256) ++ byteToHex (w / 16777216 % 256)

/-- `hashlib.md5(bytes).hexdigest()`: the full MD5 of a byte list, rendered
as 32 lowercase hex characters. -/
def md5HexDigest (msg : List Nat) : String :=
  let ws := toWords (md5Pad msg)
  let r := md5ProcessGo (ws.length + 1) ws
    (0x67452301, 0xefcdab89, 0x98badcfe, 0x10325476)
  String.mk (wordLEHex r.1 ++ wordLEHex r.2.1 ++ wordLEHex r.2.2.1 ++
    wordLEHex r.2.2.2)

/-- UTF-8 encoding of one character (`str.encode()` is UTF-8). -/
def utf8Encode (c : Char) : List Nat :=
  let n := c.toNat
  if n < 128 then [n]
  else if n < 2048 then [192 + n / 64, 128 + n % 64]
  else if n < 65536 then [224 + n / 4096, 128 + n / 64 % 64, 128 + n % 64]
  else [240 + n / 262144, 128 + n / 4096 % 64, 128 + n / 64 % 64, 128 + n % 64]

/-- `str.encode()`: the UTF-8 bytes of a string. -/
def strBytes (s : String) : List Nat := (s.data.map utf8Encode).flatten

/-- RFC 1321 test vector: the MD5 of the empty message. -/
theorem md5_vector_empty :
    md5HexDigest (strBytes "") = "d41d8cd98f00b204e9800998ecf8427e" := by
  decide

/-- RFC 1321 test vector: `md5("abc")`. -/
theorem md5_vector_abc :
    md5HexDigest (strBytes "abc") = "900150983cd24fb0d6963f7d28e17f72" := by
  decide

/-- RFC 1321 test vector: `md5("message digest")`. -/
theorem md5_vector_message_digest :
    md5HexDigest (strBytes "message digest") =
      "f96b697d7cb7938d525a2f31aaf161d0" := by
  decide

/-- `UDPPeerDiscovery._generate_conversation_id` (udp_discovery.py lines
342-358): sort the two usernames, join them with `":"`, and take the first 5
hex characters of the MD5 hexdigest.  Being a pure function of the two
usernames, its value is identical on every host. -/
def generateConversationId (user1 user2 : String) : String :=
  let sorted_users := if user2 < user1 then (user2, user1) else (user1, user2)
  let combined := sorted_users.1 ++ ":" ++ sorted_users.2
  String.mk ((md5HexDigest (strBytes combined)).data.take 5)

/-- C5.  Conversation ids are symmetric in the two usernames — they depend
only on the unordered pair — and equal the first 5 hex digits of the (RFC
1321-validated) MD5 of `"min:max"` for the sorted pair; as a pure function of
the usernames the value is identical on independently started hosts. -/
theorem conversation_id_symmetric_stable (u1 u2 : String) :
    generateConversationId u1 u2 = generateConversationId u2 u1 ∧
      generateConversationId u1 u2 =
        String.mk ((md5HexDigest
          (strBytes (min u1 u2 ++ ":" ++ max u1 u2))).data.take 5) := by
  have key : ∀ a b : String, (if b < a then (b, a) else (a, b)) =
      (min a b, max a b) := by
    intro a b
    rcases lt_trichotomy a b with h | h | h
    · rw [if_neg (asymm h), min_eq_left h.le, max_eq_right h.le]
    · subst h; simp
    · rw [if_pos h, min_eq_right h.le, max_eq_left h.le]
  constructor
  · simp only [generateConversationId]
    rw [key u1 u2, key u2 u1, min_comm u2 u1, max_comm u2 u1]
  · simp only [generateConversationId]
    rw [key u1 u2]

/-- Witness for C5 (the theorem is universally quantified with no premises,
but the concrete instance documents stability): the id of the pair
`(b#bbbb, a#aaaa)` in either order. -/
theorem conversation_id_symmetric_stable_witness :
    generateConversationId "b#bbbb" "a#aaaa" =
        generateConversationId "a#aaaa" "b#bbbb" ∧
      generateConversationId "b#bbbb" "a#aaaa" =
        String.mk ((md5HexDigest
          (strBytes (min "b#bbbb" "a#aaaa" ++ ":" ++
            max "b#bbbb" "a#aaaa"))).data.take 5) :=
  conversation_id_symmetric_stable "b#bbbb" "a#aaaa"

end LanShare
